import Mathlib

/-!
Verification of the C++React reactive runtime core: a shallow embedding of
the exclusive turn manager (TurnManager.h material) and of the event-stream
node hierarchy (EventStreamNodes.h), with theorems settling the stated
properties of those components.

Turns and caller blocking conditions live on client stacks in the C++ code;
the embedding keeps them in an explicit environment mapping identifiers
(standing for addresses) to states.  Mutex-guarded critical sections are
modelled as atomic state transitions.
-/

namespace CppReact

/-- Calls a node makes into the engine or onto its fused op; these are the
observable notifications of a tick, an input application, an op steal or a
node destruction. -/
inductive EngineCall where
  | nodePulse
  | nodeIdlePulse
  | turnInputChange
  | detachOp
  | nodeDestroy
deriving DecidableEq

/-- Pointwise update of an identifier-indexed environment. -/
def upd {T : Type} (f : Nat → T) (k : Nat) (v : T) : Nat → T :=
  fun i => if i = k then v else f i

/-- The TurnFlagsT bit enable_input_merging. -/
def enable_input_merging : Nat := 1

/-- State of ExclusiveTurnManager::ExclusiveTurn.  The field blocked is the
state of the blockCondition_ member (a BlockingCondition); merged holds the
pairs of input closure and caller condition identifier appended by TryMerge;
closures are drawn from an arbitrary type F. -/
structure ExclusiveTurn (F : Type) where
  isMergeable : Bool
  successor : Option Nat := none
  merged : List (F × Nat) := []
  blocked : Bool := false

/-- ExclusiveTurn constructor: isMergeable_ is set from the
enable_input_merging bit of the flags. -/
def ExclusiveTurn.ofFlags (F : Type) (flags : Nat) : ExclusiveTurn F :=
  { isMergeable := (flags &&& enable_input_merging) != 0 }

/-- ExclusiveTurn::TryMerge: fails when the turn is not mergeable; otherwise
runs the merge body only if the turn is still blocked (RunIfBlocked), in
which case the caller condition is blocked and the pair of closure and
caller is appended to the merge list.  The caller condition state is passed
in (fresh callers start unblocked) and returned updated.  Result:
(merged flag, updated turn, updated caller condition). -/
def ExclusiveTurn.TryMerge {F : Type} (t : ExclusiveTurn F) (inputFunc : F)
    (cid : Nat) (caller : Bool) : Bool × ExclusiveTurn F × Bool :=
  if t.isMergeable = false then
    (false, t, caller)
  else if t.blocked then
    (true, { t with merged := t.merged ++ [(inputFunc, cid)] }, true)
  else
    (false, t, caller)

/-- Runs the merged input closures in merge order
(ExclusiveTurn::RunMergedInputs), with closures acting on an observable
state of type S. -/
def ExclusiveTurn.RunMergedInputs {S : Type} (t : ExclusiveTurn (S → S))
    (s : S) : S :=
  t.merged.foldl (fun s e => e.1 s) s

/-- A wake-up issued by UnblockSuccessors: either a merge-list caller
condition is unblocked, or the successor turn is unblocked. -/
inductive WakeEvent where
  | caller (cid : Nat)
  | succTurn (tid : Nat)
deriving DecidableEq

/-- ExclusiveTurn::UnblockSuccessors as the sequence of wake-ups it issues:
first every merge-list caller, in list order, then the successor turn if
present. -/
def ExclusiveTurn.UnblockSuccessors {F : Type} (t : ExclusiveTurn F) :
    List WakeEvent :=
  t.merged.map (fun e => WakeEvent.caller e.2) ++
    (match t.successor with
     | some s => [WakeEvent.succTurn s]
     | none => [])

/-- The exclusive turn manager together with its environment of turns: tail
is the tail_ pointer (an identifier, or none for nullptr); turns gives the
state of every turn object by identifier. -/
structure ExclusiveTurnManager (F : Type) where
  turns : Nat → ExclusiveTurn F
  tail : Option Nat

/-- ExclusiveTurn::Append performed on turn tl with argument tid: sets the
successor pointer of tl to tid and blocks the blockCondition_ of tid. -/
def ExclusiveTurnManager.Append {F : Type} (m : ExclusiveTurnManager F)
    (tl tid : Nat) : ExclusiveTurnManager F :=
  let ts1 := upd m.turns tl { m.turns tl with successor := some tid }
  { m with turns := upd ts1 tid { ts1 tid with blocked := true } }

/-- ExclusiveTurnManager::TryMerge: a fresh unblocked caller condition is
created on the caller stack; under seqMutex_, if a tail turn exists it
attempts the merge.  After the critical section the caller waits for its
condition when the merge succeeded.  Result: (merged flag, updated manager,
caller condition state after the critical section, i.e. whether the caller
blocks until woken). -/
def ExclusiveTurnManager.TryMerge {F : Type} (m : ExclusiveTurnManager F)
    (inputFunc : F) (cid : Nat) : Bool × ExclusiveTurnManager F × Bool :=
  match m.tail with
  | none => (false, m, false)
  | some tl =>
    let r := (m.turns tl).TryMerge inputFunc cid false
    (r.1, { m with turns := upd m.turns tl r.2.1 }, r.2.2)

/-- ExclusiveTurnManager::StartTurn, critical section: if a tail turn
exists the submitted turn is appended to it (recorded as successor, and
blocked); in both cases the submitted turn becomes the tail.  After the
critical section the submitted turn waits on its condition, which is a
no-op when the condition was never blocked. -/
def ExclusiveTurnManager.StartTurn {F : Type} (m : ExclusiveTurnManager F)
    (tid : Nat) : ExclusiveTurnManager F :=
  let m1 := match m.tail with
    | some tl => m.Append tl tid
    | none => m
  { m1 with tail := some tid }

/-- ExclusiveTurnManager::EndTurn: under seqMutex_, the ending turn issues
its wake-ups (UnblockSuccessors), which unblocks the successor turn
condition in the environment; then tail_ is cleared when it still points at
the ending turn.  Result: (wake-up sequence, updated manager). -/
def ExclusiveTurnManager.EndTurn {F : Type} (m : ExclusiveTurnManager F)
    (tid : Nat) : List WakeEvent × ExclusiveTurnManager F :=
  let evs := (m.turns tid).UnblockSuccessors
  let ts1 := match (m.turns tid).successor with
    | some s => upd m.turns s { m.turns s with blocked := false }
    | none => m.turns
  (evs, { turns := ts1, tail := if m.tail = some tid then none else m.tail })

/-- Example turn environment for witnesses: turn 0 is mergeable, blocked,
with an empty merge list; every other identifier holds the same state. -/
def exTurnsMergeable : Nat → ExclusiveTurn Nat :=
  fun _ => { isMergeable := true, blocked := true }

/-- Example manager whose tail is turn 0 (mergeable and blocked). -/
def exMgr1 : ExclusiveTurnManager Nat :=
  { turns := exTurnsMergeable, tail := some 0 }

/-- Example manager for the EndTurn witness: turn 0 has two merged callers
(identifiers 5 and 6) and successor turn 1; the tail is turn 0. -/
def exMgr2 : ExclusiveTurnManager Nat :=
  { turns := upd exTurnsMergeable 0
      { isMergeable := true, blocked := true, successor := some 1,
        merged := [(10, 5), (11, 6)] },
    tail := some 0 }

/-- Running k closures as one sequentially composed user closure
(the single closure a client would have submitted instead). -/
def composeClosures {S : Type} (fs : List (S → S)) : S → S :=
  fun s => fs.foldl (fun s f => f s) s

/-- Modelled from the spec: DomainBase::do_transaction is not under src/;
per the spec it invokes the user closure, then the closures merged into the
turn (RunMergedInputs), then engine propagation, on the turn-owning thread.
The observable final state of executing turn t. -/
def executeTurn {S : Type} (user : S → S) (t : ExclusiveTurn (S → S))
    (propagate : S → S) (s : S) : S :=
  propagate (t.RunMergedInputs (user s))

/-! ### Event-stream nodes (EventStreamNodes.h) -/

/-- The INT_MAX sentinel that curTurnId_ is initialised to. -/
def INT_MAX_ID : Nat := 2147483647

/-- State of EventStreamNode: the event list events_ and the recorded turn
identifier curTurnId_. -/
structure EventStreamNode (E : Type) where
  events : List E := []
  curTurnId : Nat := INT_MAX_ID

/-- EventStreamNode::SetCurrentTurn: when the recorded turn id differs from
the given turn id, or forceUpdate is set, the turn id is recorded and,
unless noClear is set, the event list is cleared; otherwise nothing
changes. -/
def EventStreamNode.SetCurrentTurn {E : Type} (n : EventStreamNode E)
    (turnId : Nat) (forceUpdate : Bool) (noClear : Bool) : EventStreamNode E :=
  if (n.curTurnId != turnId) || forceUpdate then
    { curTurnId := turnId, events := if noClear then n.events else [] }
  else
    n

/-- State of EventSourceNode: the inherited stream state plus changedFlag_,
which records that staged values were already published this admission. -/
structure EventSourceNode (E : Type) where
  stream : EventStreamNode E := {}
  changedFlag : Bool := false

/-- EventSourceNode::AddInput: clears stale input left from a previous turn
(when changedFlag_ is still set), then appends the staged value. -/
def EventSourceNode.AddInput {E : Type} (n : EventSourceNode E) (v : E) :
    EventSourceNode E :=
  let n1 := if n.changedFlag then
      { n with changedFlag := false, stream := { n.stream with events := [] } }
    else n
  { n1 with stream := { n1.stream with events := n1.stream.events ++ [v] } }

/-- EventSourceNode::ApplyInput: when values are staged and changedFlag_ is
unset, the node records the turn (SetCurrentTurn with forceUpdate and
noClear), sets changedFlag_, reports OnTurnInputChange and returns true;
otherwise it returns false, reports nothing and changes nothing.  Result:
(returned bool, updated node, engine calls made). -/
def EventSourceNode.ApplyInput {E : Type} (n : EventSourceNode E)
    (turnId : Nat) : Bool × EventSourceNode E × List EngineCall :=
  if 0 < n.stream.events.length ∧ n.changedFlag = false then
    (true,
     { n with stream := n.stream.SetCurrentTurn turnId true true,
              changedFlag := true },
     [EngineCall.turnInputChange])
  else
    (false, n, [])

/-- REACT_ASSERT: an assertion that fails with the given message when the
condition is false. -/
def REACT_ASSERT (cond : Bool) (msg : String) : Except String Unit :=
  if cond then Except.ok () else Except.error msg

/-- EventSourceNode::Tick: asserts false with the message
"Dont tick the EventSourceNode" (the source message, punctuation aside)
and returns. -/
def EventSourceNode.Tick {E : Type} (n : EventSourceNode E) (turnId : Nat) :
    Except String Unit :=
  REACT_ASSERT false "Dont tick the EventSourceNode"

/-- State of EventOpNode: the inherited stream state, the fused op op_
(characterised by the event list its Collect gathers for a given turn id),
and wasOpStolen_. -/
structure EventOpNode (E : Type) where
  stream : EventStreamNode E := {}
  collect : Nat → List E
  wasOpStolen : Bool := false

/-- EventOpNode::Tick: SetCurrentTurn with forceUpdate (clearing the event
list), then op_.Collect appends the collected events to the event list via
the EventCollector; finally the node reports OnNodePulse when the event
list is non-empty and OnNodeIdlePulse when it is empty.  Result:
(updated node, engine calls made). -/
def EventOpNode.Tick {E : Type} (n : EventOpNode E) (turnId : Nat) :
    EventOpNode E × List EngineCall :=
  let s0 := n.stream.SetCurrentTurn turnId true false
  let s1 := { s0 with events := s0.events ++ n.collect turnId }
  ({ n with stream := s1 },
   if s1.events.isEmpty then [EngineCall.nodeIdlePulse]
   else [EngineCall.nodePulse])

/-- EventOpNode::StealOp: asserts that the op was not already stolen, marks
it stolen, detaches the op from the node and moves it out.  Result on
success: (the stolen op, updated node, op and engine calls made). -/
def EventOpNode.StealOp {E : Type} (n : EventOpNode E) :
    Except String ((Nat → List E) × EventOpNode E × List EngineCall) :=
  if n.wasOpStolen = true then
    Except.error "Op was already stolen."
  else
    Except.ok (n.collect, { n with wasOpStolen := true },
      [EngineCall.detachOp])

/-- The EventOpNode destructor: detaches the op only when it was not
stolen, then reports OnNodeDestroy.  Result: the op and engine calls
made. -/
def EventOpNode.destructorCalls {E : Type} (n : EventOpNode E) :
    List EngineCall :=
  (if n.wasOpStolen = false then [EngineCall.detachOp] else []) ++
    [EngineCall.nodeDestroy]

/-! ### Turn base and observer detach (TurnBase) -/

/-- State of TurnBase: the turn id and the queued observer detachments
(observer identifiers standing for IObserverNode pointers), in queue
order. -/
structure TurnBase where
  id : Nat
  detachedObservers : List Nat := []

/-- TurnBase::QueueForDetach: appends the observer to the detach queue. -/
def TurnBase.QueueForDetach (t : TurnBase) (obs : Nat) : TurnBase :=
  { t with detachedObservers := t.detachedObservers ++ [obs] }

/-- Modelled from the spec: the observer registry (spec section 4.H) is not
under src/; it is a plain set of observer identities whose Unregister
removes an identity and is idempotent. -/
def unregisterObs (registry : List Nat) (o : Nat) : List Nat :=
  registry.filter (fun x => x != o)

/-- TurnBase::detachObservers: calls registry.Unregister on every queued
observer, in queue order.  Result: (the sequence of Unregister invocations,
the resulting registry). -/
def TurnBase.detachObservers (t : TurnBase) (registry : List Nat) :
    List Nat × List Nat :=
  (t.detachedObservers, t.detachedObservers.foldl unregisterObs registry)

/-- Example event-op node for witnesses: its op collects [3] on turn 1 and
nothing on other turns. -/
def exOpNode : EventOpNode Nat :=
  { collect := fun tid => if tid = 1 then [3] else [] }

/-- Example event-source node for witnesses: one staged value, flag
unset. -/
def exSrcNode : EventSourceNode Nat :=
  { stream := { events := [7], curTurnId := INT_MAX_ID } }

/-- Example turn for witnesses: observers 4 and 8 queued for detach. -/
def exTurnBase : TurnBase :=
  { id := 2, detachedObservers := [4, 8] }

/-- Example event-stream node for witnesses: one event, recorded at
turn 0. -/
def exStreamNode : EventStreamNode Nat :=
  { events := [1], curTurnId := 0 }

/-! ### Theorems -/

/-- C1: ExclusiveTurnManager::TryMerge returns true exactly when a tail
turn exists, that turn was constructed mergeable (isMergeable, from the
input-merging flag) and it is still blocked; on success the pair of closure
and caller condition is appended to the tail turn merge list and the caller
is left blocked (it waits until woken); on failure every turn merge list is
unchanged and the caller does not block. -/
theorem tryMerge_spec {F : Type} (m : ExclusiveTurnManager F)
    (inputFunc : F) (cid : Nat) :
    ((m.TryMerge inputFunc cid).1 = true ↔
      ∃ tl, m.tail = some tl ∧ (m.turns tl).isMergeable = true ∧
        (m.turns tl).blocked = true)
    ∧ ((m.TryMerge inputFunc cid).1 = true → ∀ tl, m.tail = some tl →
        ((m.TryMerge inputFunc cid).2.1.turns tl).merged
            = (m.turns tl).merged ++ [(inputFunc, cid)]
          ∧ (m.TryMerge inputFunc cid).2.2 = true)
    ∧ ((m.TryMerge inputFunc cid).1 = false →
        (∀ i, ((m.TryMerge inputFunc cid).2.1.turns i).merged
            = (m.turns i).merged)
          ∧ (m.TryMerge inputFunc cid).2.2 = false) := by
  cases hm : m.tail with
  | none =>
    refine ⟨?_, ?_, ?_⟩
    · simp [ExclusiveTurnManager.TryMerge, hm]
    · intro h
      simp [ExclusiveTurnManager.TryMerge, hm] at h
    · intro _
      constructor
      · intro i
        simp [ExclusiveTurnManager.TryMerge, hm]
      · simp [ExclusiveTurnManager.TryMerge, hm]
  | some tl =>
    by_cases hmg : (m.turns tl).isMergeable = true
    · by_cases hb : (m.turns tl).blocked = true
      · refine ⟨?_, ?_, ?_⟩
        · simp [ExclusiveTurnManager.TryMerge, ExclusiveTurn.TryMerge,
            hm, hmg, hb]
        · intro _ tl2 htl2
          obtain rfl : tl = tl2 := (Option.some.inj htl2)
          constructor
          · simp [ExclusiveTurnManager.TryMerge, ExclusiveTurn.TryMerge,
              hm, hmg, hb, upd]
          · simp [ExclusiveTurnManager.TryMerge, ExclusiveTurn.TryMerge,
              hm, hmg, hb]
        · intro h
          simp [ExclusiveTurnManager.TryMerge, ExclusiveTurn.TryMerge,
            hm, hmg, hb] at h
      · have hb2 : (m.turns tl).blocked = false := by
          revert hb
          cases (m.turns tl).blocked <;> simp
        refine ⟨?_, ?_, ?_⟩
        · constructor
          · intro h
            simp [ExclusiveTurnManager.TryMerge, ExclusiveTurn.TryMerge,
              hm, hmg, hb2] at h
          · rintro ⟨tl2, htl2, _, hbl⟩
            obtain rfl : tl = tl2 := (Option.some.inj htl2)
            rw [hbl] at hb2
            cases hb2
        · intro h
          simp [ExclusiveTurnManager.TryMerge, ExclusiveTurn.TryMerge,
            hm, hmg, hb2] at h
        · intro _
          constructor
          · intro i
            by_cases hi : i = tl <;>
              simp [ExclusiveTurnManager.TryMerge, ExclusiveTurn.TryMerge,
                hm, hmg, hb2, upd, hi]
          · simp [ExclusiveTurnManager.TryMerge, ExclusiveTurn.TryMerge,
              hm, hmg, hb2]
    · have hmg2 : (m.turns tl).isMergeable = false := by
        revert hmg
        cases (m.turns tl).isMergeable <;> simp
      refine ⟨?_, ?_, ?_⟩
      · constructor
        · intro h
          simp [ExclusiveTurnManager.TryMerge, ExclusiveTurn.TryMerge,
            hm, hmg2] at h
        · rintro ⟨tl2, htl2, hmgl, _⟩
          obtain rfl : tl = tl2 := (Option.some.inj htl2)
          rw [hmgl] at hmg2
          cases hmg2
      · intro h
        simp [ExclusiveTurnManager.TryMerge, ExclusiveTurn.TryMerge,
          hm, hmg2] at h
      · intro _
        constructor
        · intro i
          by_cases hi : i = tl <;>
            simp [ExclusiveTurnManager.TryMerge, ExclusiveTurn.TryMerge,
              hm, hmg2, upd, hi]
        · simp [ExclusiveTurnManager.TryMerge, ExclusiveTurn.TryMerge,
            hm, hmg2]

/-- Witness for C1: on a manager whose tail turn 0 is mergeable and
blocked, TryMerge succeeds, appends the closure 37 with caller 9 to the
merge list, and leaves caller 9 blocked. -/
theorem tryMerge_spec_witness :
    (exMgr1.TryMerge 37 9).1 = true
      ∧ ((exMgr1.TryMerge 37 9).2.1.turns 0).merged = [(37, 9)]
      ∧ (exMgr1.TryMerge 37 9).2.2 = true := by
  have h := tryMerge_spec exMgr1 37 9
  have h1 : (exMgr1.TryMerge 37 9).1 = true :=
    h.1.mpr ⟨0, rfl, rfl, rfl⟩
  have h2 := h.2.1 h1 0 rfl
  exact ⟨h1, by simpa [exMgr1, exTurnsMergeable] using h2.1, h2.2⟩

/-- C2: running the closures merged into a turn (RunMergedInputs, in merge
order) inside the turn execution yields the same observable final state as
executing them as one sequentially composed user closure within that turn
(with an empty merge list). -/
theorem runMergedInputs_merge_idempotence {S : Type} (user : S → S)
    (t : ExclusiveTurn (S → S)) (propagate : S → S) (s : S) :
    executeTurn user t propagate s
      = executeTurn (fun s => composeClosures (t.merged.map Prod.fst) (user s))
          { t with merged := [] } propagate s := by
  unfold executeTurn ExclusiveTurn.RunMergedInputs composeClosures
  simp [List.foldl_map]

/-- In a concatenation whose first part holds only caller wake-ups and
whose second part holds only successor wake-ups, every caller wake-up comes
strictly before every successor wake-up. -/
theorem callers_before_succs (L B : List WakeEvent)
    (hL : ∀ x ∈ L, ∃ c, x = WakeEvent.caller c)
    (hB : ∀ x ∈ B, ∃ s, x = WakeEvent.succTurn s)
    (i j : Nat) (hi : i < (L ++ B).length) (hj : j < (L ++ B).length)
    (c s : Nat) (hci : (L ++ B).get ⟨i, hi⟩ = WakeEvent.caller c)
    (hsj : (L ++ B).get ⟨j, hj⟩ = WakeEvent.succTurn s) : i < j := by
  have hi' : i < L.length := by
    by_contra h
    have hmem : (L ++ B).get ⟨i, hi⟩ ∈ B := by
      rw [List.get_eq_getElem, List.getElem_append_right (Nat.le_of_not_lt h)]
      exact List.getElem_mem _
    obtain ⟨s', hs'⟩ := hB _ hmem
    rw [hci] at hs'
    cases hs'
  have hj' : L.length ≤ j := by
    by_contra h
    have hmem : (L ++ B).get ⟨j, hj⟩ ∈ L := by
      rw [List.get_eq_getElem, List.getElem_append_left (Nat.lt_of_not_le h)]
      exact List.getElem_mem _
    obtain ⟨c', hc'⟩ := hL _ hmem
    rw [hsj] at hc'
    cases hc'
  exact Nat.lt_of_lt_of_le hi' hj'

/-- C3: EndTurn wakes every merge-list caller of the ending turn, and every
caller wake-up comes before any successor wake-up; the successor turn, if
present, is woken (its condition unblocked); the tail is cleared exactly
when it still points at the ending turn, and left unchanged otherwise. -/
theorem endTurn_spec {F : Type} (m : ExclusiveTurnManager F) (tid : Nat) :
    (∀ e ∈ (m.turns tid).merged,
        WakeEvent.caller e.2 ∈ (m.EndTurn tid).1)
    ∧ (∀ (i j : Nat) (hi : i < (m.EndTurn tid).1.length)
          (hj : j < (m.EndTurn tid).1.length) (c s : Nat),
        (m.EndTurn tid).1.get ⟨i, hi⟩ = WakeEvent.caller c →
        (m.EndTurn tid).1.get ⟨j, hj⟩ = WakeEvent.succTurn s → i < j)
    ∧ (∀ s, (m.turns tid).successor = some s →
        WakeEvent.succTurn s ∈ (m.EndTurn tid).1
          ∧ ((m.EndTurn tid).2.turns s).blocked = false)
    ∧ (m.tail = some tid → (m.EndTurn tid).2.tail = none)
    ∧ (m.tail ≠ some tid → (m.EndTurn tid).2.tail = m.tail) := by
  have hfst : (m.EndTurn tid).1 = (m.turns tid).UnblockSuccessors := rfl
  refine ⟨?_, ?_, ?_, ?_, ?_⟩
  · intro e he
    rw [hfst]
    unfold ExclusiveTurn.UnblockSuccessors
    exact List.mem_append_left _ (List.mem_map_of_mem _ he)
  · intro i j hi hj c s hci hsj
    have hL : ∀ x ∈ (m.turns tid).merged.map (fun e => WakeEvent.caller e.2),
        ∃ c, x = WakeEvent.caller c := by
      intro x hx
      obtain ⟨e, _, rfl⟩ := List.mem_map.mp hx
      exact ⟨e.2, rfl⟩
    have hB : ∀ x ∈ (match (m.turns tid).successor with
          | some s => [WakeEvent.succTurn s]
          | none => ([] : List WakeEvent)),
        ∃ s, x = WakeEvent.succTurn s := by
      intro x hx
      cases hs : (m.turns tid).successor with
      | none => rw [hs] at hx; cases hx
      | some s0 =>
        rw [hs] at hx
        cases hx with
        | head => exact ⟨s0, rfl⟩
        | tail _ h => cases h
    exact callers_before_succs
      ((m.turns tid).merged.map (fun e => WakeEvent.caller e.2))
      (match (m.turns tid).successor with
       | some s => [WakeEvent.succTurn s]
       | none => []) hL hB i j hi hj c s hci hsj
  · intro s hs
    constructor
    · rw [hfst]
      unfold ExclusiveTurn.UnblockSuccessors
      rw [hs]
      exact List.mem_append_right _ (List.mem_singleton.mpr rfl)
    · simp [ExclusiveTurnManager.EndTurn, hs, upd]
  · intro h
    simp [ExclusiveTurnManager.EndTurn, h]
  · intro h
    simp [ExclusiveTurnManager.EndTurn, h]

/-- Witness for C3: on a manager whose ending turn 0 has merged callers 5
and 6 and successor turn 1, with tail 0: both callers are woken, the
successor is woken and unblocked, and the tail is cleared. -/
theorem endTurn_spec_witness :
    WakeEvent.caller 5 ∈ (exMgr2.EndTurn 0).1
      ∧ WakeEvent.caller 6 ∈ (exMgr2.EndTurn 0).1
      ∧ WakeEvent.succTurn 1 ∈ (exMgr2.EndTurn 0).1
      ∧ ((exMgr2.EndTurn 0).2.turns 1).blocked = false
      ∧ (exMgr2.EndTurn 0).2.tail = none := by
  have h := endTurn_spec exMgr2 0
  have h5 : ((10 : Nat), (5 : Nat)) ∈ (exMgr2.turns 0).merged := by
    simp [exMgr2, upd]
  have h6 : ((11 : Nat), (6 : Nat)) ∈ (exMgr2.turns 0).merged := by
    simp [exMgr2, upd]
  have hsucc : (exMgr2.turns 0).successor = some 1 := by
    simp [exMgr2, upd]
  have hs := h.2.2.1 1 hsucc
  exact ⟨h.1 _ h5, h.1 _ h6, hs.1, hs.2, h.2.2.2.1 rfl⟩

/-- C4: StartTurn, when a tail turn exists, records the submitted turn as
the tail turn successor and blocks the submitted turn; when no tail exists
the submitted turn is left untouched (in particular not blocked, so the
submitting thread returns without waiting); in both cases the submitted
turn is the tail when the critical section ends. -/
theorem startTurn_spec {F : Type} (m : ExclusiveTurnManager F) (tid : Nat) :
    (∀ tl, m.tail = some tl →
        ((m.StartTurn tid).turns tl).successor = some tid
          ∧ ((m.StartTurn tid).turns tid).blocked = true)
    ∧ (m.tail = none → (m.StartTurn tid).turns tid = m.turns tid)
    ∧ (m.StartTurn tid).tail = some tid := by
  refine ⟨?_, ?_, ?_⟩
  · intro tl htl
    have h1 : m.StartTurn tid = { m.Append tl tid with tail := some tid } := by
      unfold ExclusiveTurnManager.StartTurn
      rw [htl]
    rw [h1]
    constructor
    · by_cases h : tl = tid <;> simp [ExclusiveTurnManager.Append, upd, h]
    · simp [ExclusiveTurnManager.Append, upd]
  · intro h
    have h1 : m.StartTurn tid = { m with tail := some tid } := by
      unfold ExclusiveTurnManager.StartTurn
      rw [h]
    rw [h1]
  · unfold ExclusiveTurnManager.StartTurn
    rfl

/-- Witness for C4: starting turn 2 on a manager whose tail is turn 0
records 2 as the successor of 0, blocks turn 2, and makes 2 the tail. -/
theorem startTurn_spec_witness :
    ((exMgr1.StartTurn 2).turns 0).successor = some 2
      ∧ ((exMgr1.StartTurn 2).turns 2).blocked = true
      ∧ (exMgr1.StartTurn 2).tail = some 2 := by
  have h := startTurn_spec exMgr1 2
  have h0 := h.1 0 rfl
  exact ⟨h0.1, h0.2, h.2.2⟩

/-- C5: one EventOpNode::Tick reports exactly one notification, OnNodePulse
exactly when the event list collected by this tick is non-empty and
OnNodeIdlePulse exactly when it is empty; the node event list after the
tick is precisely the collected list. -/
theorem eventOpNode_tick_pulse_spec {E : Type} (n : EventOpNode E)
    (turnId : Nat) :
    ((n.Tick turnId).2 = [EngineCall.nodePulse] ↔ n.collect turnId ≠ [])
    ∧ ((n.Tick turnId).2 = [EngineCall.nodeIdlePulse] ↔ n.collect turnId = [])
    ∧ (n.Tick turnId).2.length = 1
    ∧ (n.Tick turnId).1.stream.events = n.collect turnId := by
  cases h : n.collect turnId with
  | nil =>
    simp [EventOpNode.Tick, EventStreamNode.SetCurrentTurn, h]
  | cons a l =>
    simp [EventOpNode.Tick, EventStreamNode.SetCurrentTurn, h]

/-- Witness for C5: the example op node pulses on turn 1 (its op collects
[3] there) and idle-pulses on turn 0 (its op collects nothing there). -/
theorem eventOpNode_tick_pulse_witness :
    (exOpNode.Tick 1).2 = [EngineCall.nodePulse]
      ∧ (exOpNode.Tick 0).2 = [EngineCall.nodeIdlePulse] := by
  have h1 := eventOpNode_tick_pulse_spec exOpNode 1
  have h0 := eventOpNode_tick_pulse_spec exOpNode 0
  exact ⟨h1.1.mpr (by decide), h0.2.1.mpr (by decide)⟩

/-- A node that already published this admission (changedFlag_ set) fails
ApplyInput and is left unchanged. -/
theorem applyInput_changed {E : Type} (m : EventSourceNode E) (tid : Nat)
    (h : m.changedFlag = true) : m.ApplyInput tid = (false, m, []) := by
  simp [EventSourceNode.ApplyInput, h]

/-- C6: EventSourceNode::ApplyInput returns true and reports
OnTurnInputChange exactly when values are staged and the node has not yet
published this admission (changedFlag_ unset); a failing ApplyInput reports
nothing and leaves the node unchanged; after a successful ApplyInput a
repeated ApplyInput for the same staging fails, reports nothing and leaves
the node unchanged; staging a value through AddInput always enables the
next ApplyInput. -/
theorem applyInput_spec {E : Type} (n : EventSourceNode E)
    (turnId turnId2 : Nat) :
    (((n.ApplyInput turnId).1 = true
        ∧ (n.ApplyInput turnId).2.2 = [EngineCall.turnInputChange])
      ↔ (n.stream.events ≠ [] ∧ n.changedFlag = false))
    ∧ ((n.ApplyInput turnId).1 = false →
        (n.ApplyInput turnId).2.1 = n ∧ (n.ApplyInput turnId).2.2 = [])
    ∧ ((n.ApplyInput turnId).1 = true →
        ((n.ApplyInput turnId).2.1.ApplyInput turnId2).1 = false
          ∧ ((n.ApplyInput turnId).2.1.ApplyInput turnId2).2.1
              = (n.ApplyInput turnId).2.1
          ∧ ((n.ApplyInput turnId).2.1.ApplyInput turnId2).2.2 = [])
    ∧ (∀ v, ((n.AddInput v).ApplyInput turnId).1 = true) := by
  refine ⟨?_, ?_, ?_, ?_⟩
  · by_cases hc : 0 < n.stream.events.length ∧ n.changedFlag = false
    · rcases hc with ⟨hlen, hflag⟩
      have hne : n.stream.events ≠ [] := List.length_pos.mp hlen
      simp [EventSourceNode.ApplyInput, hlen, hflag, hne]
    · have hrhs : ¬(n.stream.events ≠ [] ∧ n.changedFlag = false) := by
        rintro ⟨hne, hflag⟩
        exact hc ⟨List.length_pos.mpr hne, hflag⟩
      simp [EventSourceNode.ApplyInput, hc, hrhs]
  · intro h
    by_cases hc : 0 < n.stream.events.length ∧ n.changedFlag = false
    · simp [EventSourceNode.ApplyInput, hc] at h
    · simp [EventSourceNode.ApplyInput, hc]
  · intro h
    by_cases hc : 0 < n.stream.events.length ∧ n.changedFlag = false
    · have h1 : (n.ApplyInput turnId).2.1.changedFlag = true := by
        simp [EventSourceNode.ApplyInput, hc]
      rw [applyInput_changed _ turnId2 h1]
      exact ⟨rfl, rfl, rfl⟩
    · simp [EventSourceNode.ApplyInput, hc] at h
  · intro v
    by_cases hf : n.changedFlag = true
    · simp [EventSourceNode.AddInput, EventSourceNode.ApplyInput, hf]
    · have hf2 : n.changedFlag = false := by
        revert hf
        cases n.changedFlag <;> simp
      simp [EventSourceNode.AddInput, EventSourceNode.ApplyInput, hf2]

/-- Witness for C6: the example source node (one staged value, flag unset)
applies its input successfully, reporting the change; the repeated
application fails and reports nothing. -/
theorem applyInput_spec_witness :
    (exSrcNode.ApplyInput 3).1 = true
      ∧ (exSrcNode.ApplyInput 3).2.2 = [EngineCall.turnInputChange]
      ∧ ((exSrcNode.ApplyInput 3).2.1.ApplyInput 4).1 = false
      ∧ ((exSrcNode.ApplyInput 3).2.1.ApplyInput 4).2.2 = [] := by
  have h := applyInput_spec exSrcNode 3 4
  have h1 := h.1.mpr ⟨by decide, rfl⟩
  have h2 := h.2.2.1 h1.1
  exact ⟨h1.1, h1.2, h2.1, h2.2.2⟩

/-- Counterexample for C7: ticking a concrete EventSourceNode does not
complete without failing an assertion. It fails REACT_ASSERT with the
message the source hard-codes. -/
theorem eventSourceNode_tick_cex :
    exSrcNode.Tick 0 = Except.error "Dont tick the EventSourceNode"
      ∧ exSrcNode.Tick 0 ≠ Except.ok () := by
  constructor
  · rfl
  · intro h
    simp [EventSourceNode.Tick, REACT_ASSERT] at h

/-- C7 (amended): every invocation of EventSourceNode::Tick fails the
assertion with the hard-coded message; event-source input nodes are never
meant to be ticked. -/
theorem eventSourceNode_tick_asserts {E : Type} (n : EventSourceNode E)
    (turnId : Nat) :
    n.Tick turnId = Except.error "Dont tick the EventSourceNode" := rfl

/-- Folding Unregister over a queue never introduces an identity into the
registry: an identity absent from the registry stays absent. -/
theorem unregister_notMem_preserved (o : Nat) :
    ∀ (l : List Nat) (r : List Nat), o ∉ r → o ∉ l.foldl unregisterObs r := by
  intro l
  induction l with
  | nil =>
    intro r hr
    exact hr
  | cons a l ih =>
    intro r hr
    have : o ∉ unregisterObs r a := by
      intro hmem
      exact hr (List.mem_of_mem_filter hmem)
    exact ih _ this

/-- An identity occurring in the Unregister queue is absent from the final
registry. -/
theorem unregister_mem_removed (o : Nat) :
    ∀ (l : List Nat), o ∈ l → ∀ r, o ∉ l.foldl unregisterObs r := by
  intro l
  induction l with
  | nil =>
    intro h
    cases h
  | cons a l ih =>
    intro h r
    by_cases hol : o ∈ l
    · exact ih hol _
    · have hoa : o = a := by
        cases h with
        | head => rfl
        | tail _ h2 => exact absurd h2 hol
      have hnotin : o ∉ unregisterObs r a := by
        subst hoa
        unfold unregisterObs
        simp [List.mem_filter]
      exact unregister_notMem_preserved o l _ hnotin

/-- An identity not occurring in the Unregister queue keeps its registry
membership. -/
theorem unregister_notMem_iff (o : Nat) :
    ∀ (l : List Nat), o ∉ l →
      ∀ r, (o ∈ l.foldl unregisterObs r ↔ o ∈ r) := by
  intro l
  induction l with
  | nil =>
    intro _ r
    exact Iff.rfl
  | cons a l ih =>
    intro h r
    have hoa : o ≠ a := fun he => h (he ▸ List.mem_cons_self a l)
    have hl : o ∉ l := fun hm => h (List.mem_cons_of_mem a hm)
    rw [List.foldl_cons, ih hl]
    unfold unregisterObs
    rw [List.mem_filter]
    simp [hoa]

/-- C8: turn finalization calls registry Unregister on the queued observers
exactly (the invocation sequence has the same occurrence counts as the
detach queue); an observer queued once is unregistered once and leaves the
registry; an observer never queued gets no Unregister call and keeps its
registry membership; QueueForDetach adds exactly one queue occurrence. -/
theorem detachObservers_spec (t : TurnBase) (registry : List Nat)
    (o : Nat) :
    ((t.detachObservers registry).1.count o = t.detachedObservers.count o)
    ∧ (t.detachedObservers.count o = 1 →
        (t.detachObservers registry).1.count o = 1
          ∧ o ∉ (t.detachObservers registry).2)
    ∧ (o ∉ t.detachedObservers →
        (t.detachObservers registry).1.count o = 0
          ∧ (o ∈ (t.detachObservers registry).2 ↔ o ∈ registry))
    ∧ (∀ obs, (t.QueueForDetach obs).detachedObservers.count obs
        = t.detachedObservers.count obs + 1) := by
  refine ⟨rfl, ?_, ?_, ?_⟩
  · intro h1
    constructor
    · exact h1
    · have hmem : o ∈ t.detachedObservers :=
        List.count_pos_iff.mp (h1 ▸ Nat.one_pos)
      exact unregister_mem_removed o _ hmem registry
  · intro hmem
    constructor
    · exact List.count_eq_zero.mpr hmem
    · exact unregister_notMem_iff o _ hmem registry
  · intro obs
    simp [TurnBase.QueueForDetach]

/-- Witness for C8: with observers 4 and 8 queued and registry [4, 9],
observer 4 receives exactly one Unregister call and leaves the registry,
while the never-queued observer 9 receives none and stays. -/
theorem detachObservers_spec_witness :
    (exTurnBase.detachObservers [4, 9]).1.count 4 = 1
      ∧ 4 ∉ (exTurnBase.detachObservers [4, 9]).2
      ∧ (exTurnBase.detachObservers [4, 9]).1.count 9 = 0
      ∧ 9 ∈ (exTurnBase.detachObservers [4, 9]).2 := by
  have h4 := detachObservers_spec exTurnBase [4, 9] 4
  have h9 := detachObservers_spec exTurnBase [4, 9] 9
  have p4 := h4.2.1 (by decide)
  have p9 := h9.2.2.1 (by decide)
  exact ⟨p4.1, p4.2, p9.1, p9.2.mpr (by decide)⟩

/-- C9: SetCurrentTurn without forceUpdate and noClear clears the event
list and records the turn id exactly when the recorded id differs from the
given one; with an equal id it is the identity; hence the operation is
idempotent within a turn. -/
theorem setCurrentTurn_spec {E : Type} (n : EventStreamNode E)
    (turnId : Nat) :
    (n.curTurnId ≠ turnId →
        (n.SetCurrentTurn turnId false false).events = []
          ∧ (n.SetCurrentTurn turnId false false).curTurnId = turnId)
    ∧ (n.curTurnId = turnId → n.SetCurrentTurn turnId false false = n)
    ∧ ((n.SetCurrentTurn turnId false false).SetCurrentTurn turnId false false
        = n.SetCurrentTurn turnId false false) := by
  by_cases h : n.curTurnId = turnId
  · refine ⟨fun hne => absurd h hne, fun _ => ?_, ?_⟩
    · simp [EventStreamNode.SetCurrentTurn, h]
    · simp [EventStreamNode.SetCurrentTurn, h]
  · refine ⟨fun _ => ?_, fun he => absurd he h, ?_⟩
    · simp [EventStreamNode.SetCurrentTurn, h]
    · have hr : n.SetCurrentTurn turnId false false
          = { events := [], curTurnId := turnId } := by
        simp [EventStreamNode.SetCurrentTurn, h]
      rw [hr]
      simp [EventStreamNode.SetCurrentTurn]

/-- Witness for C9: on a node recorded at turn 0 with one event, turn 5
clears the events and records 5, and repeating the call changes nothing. -/
theorem setCurrentTurn_spec_witness :
    (exStreamNode.SetCurrentTurn 5 false false).events = []
      ∧ (exStreamNode.SetCurrentTurn 5 false false).curTurnId = 5
      ∧ ((exStreamNode.SetCurrentTurn 5 false false).SetCurrentTurn 5
          false false = exStreamNode.SetCurrentTurn 5 false false) := by
  have h := setCurrentTurn_spec exStreamNode 5
  have h1 := h.1 (by decide)
  exact ⟨h1.1, h1.2, h.2.2⟩

/-- C10: StealOp succeeds at most once: on a node whose op was not stolen
it detaches the op, marks it stolen and moves it out (and the destructor of
such a node would detach exactly once); on a node already stolen it fails
the assertion; after a successful StealOp a second StealOp fails the
assertion and the destructor no longer detaches the op. -/
theorem stealOp_spec {E : Type} (n : EventOpNode E) :
    (n.wasOpStolen = false →
        n.StealOp = Except.ok (n.collect, { n with wasOpStolen := true },
            [EngineCall.detachOp])
          ∧ n.destructorCalls = [EngineCall.detachOp, EngineCall.nodeDestroy])
    ∧ (n.wasOpStolen = true →
        n.StealOp = Except.error "Op was already stolen.")
    ∧ (∀ op n2 calls, n.StealOp = Except.ok (op, n2, calls) →
        n2.StealOp = Except.error "Op was already stolen."
          ∧ n2.destructorCalls = [EngineCall.nodeDestroy]) := by
  refine ⟨?_, ?_, ?_⟩
  · intro hw
    constructor
    · simp [EventOpNode.StealOp, hw]
    · simp [EventOpNode.destructorCalls, hw]
  · intro hw
    simp [EventOpNode.StealOp, hw]
  · intro op n2 calls h
    by_cases hw : n.wasOpStolen = true
    · simp [EventOpNode.StealOp, hw] at h
    · have hw2 : n.wasOpStolen = false := by
        revert hw
        cases n.wasOpStolen <;> simp
      simp [EventOpNode.StealOp, hw2] at h
      obtain ⟨h1, h2, h3⟩ := h
      constructor
      · rw [← h2]
        simp [EventOpNode.StealOp]
      · rw [← h2]
        simp [EventOpNode.destructorCalls]

/-- Witness for C10: stealing the op of the example node succeeds once,
fails the assertion the second time, and the destructor of the stolen node
does not detach the op again. -/
theorem stealOp_spec_witness :
    exOpNode.StealOp = Except.ok (exOpNode.collect,
        { exOpNode with wasOpStolen := true }, [EngineCall.detachOp])
      ∧ ({ exOpNode with wasOpStolen := true } : EventOpNode Nat).StealOp
          = Except.error "Op was already stolen."
      ∧ ({ exOpNode with wasOpStolen := true } :
          EventOpNode Nat).destructorCalls = [EngineCall.nodeDestroy] := by
  have h := stealOp_spec exOpNode
  have h1 := h.1 rfl
  have h3 := h.2.2 exOpNode.collect { exOpNode with wasOpStolen := true }
    [EngineCall.detachOp] h1.1
  exact ⟨h1.1, h3.1, h3.2⟩

end CppReact
